import Mathlib

/-!
Verification of the msg2eml converter (src/msg2eml.py) against its
natural-language specification.

The embedding models the filesystem as an explicit `World` (lists of existing
file paths and directory paths, plus oracles telling whether opening the MSG
container, serializing it, and writing the output succeed for a given path).
Paths are lists of name components, mirroring `pathlib.Path`. Exceptions
raised by the decoder or by I/O are modelled by the oracles returning `false`;
the `try/except` wrapper of `convert_msg_to_eml` turns every such condition
into the `none` result, exactly as the Python code returns `None`.

Modelling notes, all matching the POSIX behaviour of the source:
- `Path.glob` is case-sensitive (`pattern '*.msg'` compiled by pathlib's
  fnmatch translation, case-sensitive on a PurePosixPath) and returns every
  existing entry (file or directory) matching the pattern.
- `with_suffix` replaces the part of the final component from its last dot,
  provided that dot is neither the first nor the last character of the name
  (pathlib's suffix rule).
- `mkdir(parents=True, exist_ok=True)` is modelled as always succeeding,
  adding the directory and all its ancestors.
- a failed write leaves the (partial) output file behind, as noted in the
  design notes of the spec; the decoder handle is tracked by the
  `opened`/`closed` flags of the conversion outcome.
-/

namespace Msg2Eml

/-- A filesystem path, as its list of name components (pathlib `Path.parts`). -/
structure Path where
  components : List String
deriving DecidableEq

/-- Index of the last dot in a list of characters, if any. -/
def lastDotIdx : List Char → Option Nat
  | [] => none
  | c :: cs =>
    match lastDotIdx cs with
    | some i => some (i + 1)
    | none => if c = '.' then some 0 else none

/-- Position where pathlib considers the suffix of a name to start: the last
dot, provided it is neither the first nor the last character of the name. -/
def nameSuffixIdx (s : String) : Option Nat :=
  match lastDotIdx s.data with
  | some i => if 0 < i ∧ i + 1 < s.data.length then some i else none
  | none => none

/-- pathlib `with_suffix` on a single name: replace the suffix if there is
one, otherwise append. -/
def withSuffixName (s suf : String) : String :=
  match nameSuffixIdx s with
  | some i => String.mk (s.data.take i ++ suf.data)
  | none => s ++ suf

/-- Apply `withSuffixName` to the last component of a path. -/
def replaceLastName : List String → String → List String
  | [], _ => []
  | [x], suf => [withSuffixName x suf]
  | x :: xs, suf => x :: replaceLastName xs suf

/-- pathlib `Path.with_suffix`. -/
def Path.withSuffix (p : Path) (suf : String) : Path :=
  ⟨replaceLastName p.components suf⟩

/-- pathlib `/` (path join with a relative path). -/
def Path.join (p q : Path) : Path :=
  ⟨p.components ++ q.components⟩

/-- pathlib `Path.relative_to` (the source only calls it on glob results,
where the base is a genuine prefix). -/
def Path.relativeTo (p base : Path) : Path :=
  ⟨p.components.drop base.components.length⟩

/-- pathlib `Path.parent`. -/
def Path.parent (p : Path) : Path :=
  ⟨p.components.dropLast⟩

/-- Boolean test that `suf` is a literal suffix of `s` (case-sensitive). -/
def strEndsWith (s suf : String) : Bool :=
  suf.data.isSuffixOf s.data

/-- One component of a glob pattern: `star suf` is `*suf` (a single component
ending in `suf`), `anyDirs` is `**` (zero or more components). -/
inductive GlobSeg where
  | star (suf : String)
  | anyDirs
deriving DecidableEq

/-- Auxiliary for `**`: whether the continuation matcher accepts some suffix
of the component list (`**` consumes zero or more leading components). -/
def anySuffix (m : List String → Bool) : List String → Bool
  | [] => m []
  | c :: cs => m (c :: cs) || anySuffix m cs

/-- Matching of a glob pattern against a relative component list, following
fnmatch semantics as pathlib compiles them: `*suf` consumes one component
ending in `suf`, `**` consumes zero or more components. -/
def segsMatch : List GlobSeg → List String → Bool
  | [], [] => true
  | [], _ :: _ => false
  | GlobSeg.star _ :: _, [] => false
  | GlobSeg.star suf :: ps1, c :: cs1 => strEndsWith c suf && segsMatch ps1 cs1
  | GlobSeg.anyDirs :: ps1, cs => anySuffix (segsMatch ps1) cs

/-- The filesystem together with the behaviour of the external decoder and of
output I/O: `openOk p` is whether `extract_msg.Message(p)` succeeds,
`serializeOk p` whether `asEmailMessage()` succeeds for that message, and
`writeOk q` whether writing the output file `q` succeeds. -/
structure World where
  files : List Path
  dirs : List Path
  openOk : Path → Bool
  serializeOk : Path → Bool
  writeOk : Path → Bool

/-- Every existing filesystem entry (files and directories). -/
def World.entries (w : World) : List Path :=
  w.files ++ w.dirs

/-- pathlib `Path.exists`. -/
def pathExists (w : World) (p : Path) : Bool :=
  decide (p ∈ w.files) || decide (p ∈ w.dirs)

/-- pathlib `Path.is_dir`. -/
def isDir (w : World) (p : Path) : Bool :=
  decide (p ∈ w.dirs)

/-- Whether an existing entry matches the glob pattern relative to `dir`. -/
def globMatch (dir : Path) (pat : List GlobSeg) (f : Path) : Bool :=
  dir.components.isPrefixOf f.components &&
    segsMatch pat (f.components.drop dir.components.length)

/-- pathlib `Path.glob`: every existing entry under `dir` matching `pat`. -/
def glob (w : World) (dir : Path) (pat : List GlobSeg) : List Path :=
  w.entries.filter (globMatch dir pat)

/-- All the ancestor paths of `d`, `d` itself included. -/
def ancestorsOf (d : Path) : List Path :=
  (List.range (d.components.length + 1)).map (fun i => ⟨d.components.take i⟩)

/-- Effect of `d.mkdir(parents=True, exist_ok=True)`. -/
def mkdirAll (w : World) (d : Path) : World :=
  { w with dirs := ancestorsOf d ++ w.dirs }

/-- Effect of creating (or overwriting) the file `p`. -/
def writeFile (w : World) (p : Path) : World :=
  { w with files := p :: w.files }

/-- Outcome of one run of `convert_msg_to_eml`: its return value, the
filesystem afterwards, and whether the decoder handle was opened and whether
it was explicitly closed before returning. -/
structure ConvOutcome where
  result : Option Path
  world : World
  opened : Bool
  closed : Bool


/-- Output-path resolution of `convert_msg_to_eml` (source lines 38-41). -/
def resolveOutput (msg_path : Path) (output_path : Option Path) : Path :=
  match output_path with
  | none => msg_path.withSuffix ".eml"
  | some p => p

/-- Embedding of `convert_msg_to_eml` (source lines 13-58). The extension
warning of lines 31-32 only prints and is therefore not part of the state.
The `try/except Exception` wrapper is reflected in every failing branch
producing the `none` result instead of an escaping exception. -/
def convert_msg_to_eml (msg_path : Path) (output_path : Option Path)
    (w : World) : ConvOutcome :=
  if pathExists w msg_path = false then
    ⟨none, w, false, false⟩
  else if w.openOk msg_path = false then
    ⟨none, w, false, false⟩
  else
    let out := resolveOutput msg_path output_path
    let w1 := mkdirAll w out.parent
    if w.serializeOk msg_path = false then
      ⟨none, w1, true, false⟩
    else if w.writeOk out = false then
      ⟨none, writeFile w1 out, true, false⟩
    else
      ⟨some out, writeFile w1 out, true, true⟩

/-- Summary of a batch run: the returned pair of counts, plus the number of
invocations of `convert_msg_to_eml` and the final filesystem. -/
structure BatchOutcome where
  success : Nat
  failure : Nat
  attempts : Nat
  world : World


/-- Per-file output path computed by the batch loop (source lines 93-98). -/
def batchOutputPath (input_dir : Path) (output_dir : Option Path)
    (msg_file : Path) : Path :=
  match output_dir with
  | some od => od.join ((msg_file.relativeTo input_dir).withSuffix ".eml")
  | none => msg_file.withSuffix ".eml"

/-- The `for msg_file in msg_files` loop of `convert_directory`
(source lines 92-104). -/
def batchLoop (input_dir : Path) (output_dir : Option Path) :
    List Path → World → BatchOutcome
  | [], w => ⟨0, 0, 0, w⟩
  | f :: fs, w =>
    let o := convert_msg_to_eml f (some (batchOutputPath input_dir output_dir f)) w
    let rest := batchLoop input_dir output_dir fs o.world
    if o.result.isSome then
      ⟨rest.success + 1, rest.failure, rest.attempts + 1, rest.world⟩
    else
      ⟨rest.success, rest.failure + 1, rest.attempts + 1, rest.world⟩

/-- The glob pattern selected on source line 80. -/
def msgPattern (recursive : Bool) : List GlobSeg :=
  if recursive then [GlobSeg.anyDirs, GlobSeg.star ".msg"]
  else [GlobSeg.star ".msg"]

/-- Embedding of `convert_directory` (source lines 61-106). -/
def convert_directory (input_dir : Path) (output_dir : Option Path)
    (recursive : Bool) (w : World) : BatchOutcome :=
  if pathExists w input_dir = false ∨ isDir w input_dir = false then
    ⟨0, 0, 0, w⟩
  else
    let msg_files := glob w input_dir (msgPattern recursive)
    if msg_files.isEmpty then
      ⟨0, 0, 0, w⟩
    else
      batchLoop input_dir output_dir msg_files w

/-- Parsed command-line arguments (source lines 123-145). -/
structure Args where
  input : Option Path
  output : Option Path
  directory : Option Path
  recursive : Bool

/-- Outcome of a run of `main`: the process exit code, the number of
invocations of `convert_msg_to_eml`, and the final filesystem. -/
structure MainOutcome where
  exitCode : Nat
  attempts : Nat
  world : World


/-- Embedding of `main` after argument parsing (source lines 147-169). -/
def main (args : Args) (w : World) : MainOutcome :=
  if args.input.isNone && args.directory.isNone then
    ⟨1, 0, w⟩
  else if args.input.isSome && args.directory.isSome then
    ⟨1, 0, w⟩
  else
    match args.directory with
    | some d =>
      let b := convert_directory d args.output args.recursive w
      ⟨if b.failure = 0 then 0 else 1, b.attempts, b.world⟩
    | none =>
      match args.input with
      | some i =>
        let o := convert_msg_to_eml i args.output w
        ⟨if o.result.isSome then 0 else 1, 1, o.world⟩
      | none => ⟨0, 0, w⟩

/-! Helper lemmas about the batch loop and the single-file converter. -/

/-- The two counters of the batch loop add up to the number of processed
files. -/
theorem batchLoop_sum (d : Path) (od : Option Path) (fs : List Path) :
    ∀ w : World,
      (batchLoop d od fs w).success + (batchLoop d od fs w).failure
        = fs.length := by
  induction fs with
  | nil => intro w; rfl
  | cons f fs ih =>
    intro w
    have hh := ih ((convert_msg_to_eml f (some (batchOutputPath d od f)) w).world)
    unfold batchLoop
    cases h : (convert_msg_to_eml f (some (batchOutputPath d od f)) w).result.isSome <;>
      simp [h] <;> omega

/-- The batch loop invokes the single-file converter once per file. -/
theorem batchLoop_attempts (d : Path) (od : Option Path) (fs : List Path) :
    ∀ w : World, (batchLoop d od fs w).attempts = fs.length := by
  induction fs with
  | nil => intro w; rfl
  | cons f fs ih =>
    intro w
    have hh := ih ((convert_msg_to_eml f (some (batchOutputPath d od f)) w).world)
    unfold batchLoop
    cases h : (convert_msg_to_eml f (some (batchOutputPath d od f)) w).result.isSome <;>
      simp [h] <;> omega

/-- One conversion either leaves the set of files unchanged or adds exactly
the resolved output path. -/
theorem convert_files_cases (p : Path) (op : Option Path) (w : World) :
    (convert_msg_to_eml p op w).world.files = w.files ∨
    (convert_msg_to_eml p op w).world.files = resolveOutput p op :: w.files := by
  unfold convert_msg_to_eml
  cases h1 : pathExists w p <;> cases h2 : w.openOk p <;>
    cases h3 : w.serializeOk p <;> cases h4 : w.writeOk (resolveOutput p op) <;>
    simp [h1, h2, h3, h4, mkdirAll, writeFile]

/-- Every file present after the batch loop was either already present or is
the per-file output path of one of the processed files. -/
theorem batchLoop_files (d : Path) (od : Option Path) (fs : List Path) :
    ∀ (w : World) (q : Path), q ∈ (batchLoop d od fs w).world.files →
      q ∈ w.files ∨ ∃ f ∈ fs, q = batchOutputPath d od f := by
  induction fs with
  | nil =>
    intro w q hq
    exact Or.inl hq
  | cons f fs ih =>
    intro w q hq
    have hw : (batchLoop d od (f :: fs) w).world
        = (batchLoop d od fs
            (convert_msg_to_eml f (some (batchOutputPath d od f)) w).world).world := by
      rw [batchLoop]
      cases h : (convert_msg_to_eml f (some (batchOutputPath d od f)) w).result.isSome <;>
        simp [h]
    rw [hw] at hq
    rcases ih _ q hq with h1 | ⟨g, hg, hq2⟩
    · rcases convert_files_cases f (some (batchOutputPath d od f)) w with h2 | h2
      · rw [h2] at h1
        exact Or.inl h1
      · rw [h2] at h1
        rcases List.mem_cons.mp h1 with h3 | h3
        · exact Or.inr ⟨f, List.mem_cons_self f fs, h3⟩
        · exact Or.inl h3
    · exact Or.inr ⟨g, List.mem_cons_of_mem f hg, hq2⟩

/-! Claim theorems. -/

/-- C3 (counterexample): when the input exists and decoding succeeds but
serialization raises, the decoder handle is opened yet never explicitly
closed before the converter returns, contradicting the claim that it is
closed on every exit path. -/
theorem C3_counterexample :
    (convert_msg_to_eml ⟨["a.msg"]⟩ none
        ⟨[⟨["a.msg"]⟩], [], fun _ => true, fun _ => false, fun _ => true⟩).opened
      = true ∧
    (convert_msg_to_eml ⟨["a.msg"]⟩ none
        ⟨[⟨["a.msg"]⟩], [], fun _ => true, fun _ => false, fun _ => true⟩).closed
      = false ∧
    (convert_msg_to_eml ⟨["a.msg"]⟩ none
        ⟨[⟨["a.msg"]⟩], [], fun _ => true, fun _ => false, fun _ => true⟩).result
      = none := by
  refine ⟨?_, ?_, ?_⟩ <;> rfl

/-- C3 (amended): the decoder handle is explicitly closed exactly on the
successful exit path; on every failing path, including the ones where the
handle was opened and serialization or the write then raised, it is not
closed. -/
theorem C3_close_only_on_success (p : Path) (op : Option Path) (w : World) :
    (convert_msg_to_eml p op w).closed = (convert_msg_to_eml p op w).result.isSome := by
  unfold convert_msg_to_eml
  cases h1 : pathExists w p <;> cases h2 : w.openOk p <;>
    cases h3 : w.serializeOk p <;> cases h4 : w.writeOk (resolveOutput p op) <;>
    simp [h1, h2, h3, h4]

/-- C6: converting a nonexistent input path returns the error value `none`
and creates no output file. -/
theorem C6_notfound_no_output (p : Path) (op : Option Path) (w : World)
    (h : pathExists w p = false) :
    (convert_msg_to_eml p op w).result = none ∧
    (convert_msg_to_eml p op w).world.files = w.files := by
  unfold convert_msg_to_eml
  simp [h]

/-- C6 (witness): the nonexistent input `ghost.msg` in an empty filesystem. -/
theorem C6_notfound_no_output_witness :
    (convert_msg_to_eml ⟨["ghost.msg"]⟩ none
        ⟨[], [], fun _ => true, fun _ => true, fun _ => true⟩).result = none ∧
    (convert_msg_to_eml ⟨["ghost.msg"]⟩ none
        ⟨[], [], fun _ => true, fun _ => true, fun _ => true⟩).world.files
      = (⟨[], [], fun _ => true, fun _ => true, fun _ => true⟩ : World).files :=
  C6_notfound_no_output ⟨["ghost.msg"]⟩ none
    ⟨[], [], fun _ => true, fun _ => true, fun _ => true⟩ rfl

/-- C10: converting a nonexistent input path leaves the whole filesystem
unchanged — in particular no output parent directory is created, because the
existence check returns before the `mkdir` call. -/
theorem C10_notfound_frame (p : Path) (op : Option Path) (w : World)
    (h : pathExists w p = false) :
    (convert_msg_to_eml p op w).world = w := by
  unfold convert_msg_to_eml
  simp [h]

/-- C10 (witness): a nonexistent input with an explicit output path in a
deep directory, in an empty filesystem. -/
theorem C10_notfound_frame_witness :
    (convert_msg_to_eml ⟨["gone.msg"]⟩ (some ⟨["out", "sub", "x.eml"]⟩)
        ⟨[], [], fun _ => true, fun _ => true, fun _ => true⟩).world
      = ⟨[], [], fun _ => true, fun _ => true, fun _ => true⟩ :=
  C10_notfound_frame ⟨["gone.msg"]⟩ (some ⟨["out", "sub", "x.eml"]⟩)
    ⟨[], [], fun _ => true, fun _ => true, fun _ => true⟩ rfl

/-- C7: when both a bare input path and the directory flag are supplied,
`main` exits with code 1, invokes zero conversions and leaves the
filesystem unchanged. -/
theorem C7_conflicting_args (a : Args) (w : World)
    (hi : a.input.isSome = true) (hd : a.directory.isSome = true) :
    main a w = ⟨1, 0, w⟩ := by
  obtain ⟨x, hx⟩ := Option.isSome_iff_exists.mp hi
  obtain ⟨y, hy⟩ := Option.isSome_iff_exists.mp hd
  unfold main
  simp [hx, hy]

/-- C7 (witness): both `a.msg` and directory `d` supplied. -/
theorem C7_conflicting_args_witness :
    main ⟨some ⟨["a.msg"]⟩, none, some ⟨["d"]⟩, false⟩
        ⟨[], [], fun _ => true, fun _ => true, fun _ => true⟩
      = ⟨1, 0, ⟨[], [], fun _ => true, fun _ => true, fun _ => true⟩⟩ :=
  C7_conflicting_args ⟨some ⟨["a.msg"]⟩, none, some ⟨["d"]⟩, false⟩
    ⟨[], [], fun _ => true, fun _ => true, fun _ => true⟩ rfl rfl

/-- C2 (counterexample): with a nonexistent input directory, the batch run
records zero failures (it returns `(0, 0)`) and the process exits with code
0 — not 1 as the claim states. -/
theorem C2_counterexample :
    pathExists ⟨[], [], fun _ => true, fun _ => true, fun _ => true⟩ ⟨["missing"]⟩
      = false ∧
    (convert_directory ⟨["missing"]⟩ none false
        ⟨[], [], fun _ => true, fun _ => true, fun _ => true⟩).failure = 0 ∧
    (main ⟨none, none, some ⟨["missing"]⟩, false⟩
        ⟨[], [], fun _ => true, fun _ => true, fun _ => true⟩).exitCode = 0 := by
  refine ⟨?_, ?_, ?_⟩ <;> rfl

/-- C2 (amended): when the batch input directory does not exist, the error
is only reported on the error stream; the run returns the empty summary
`(0, 0)` with no conversion attempted, so — `failure_count` being zero — the
process exit code in directory mode is 0. -/
theorem C2_missing_dir_exit_zero (a : Args) (d : Path) (w : World)
    (hd : a.directory = some d) (hi : a.input = none)
    (hex : pathExists w d = false) :
    convert_directory d a.output a.recursive w = ⟨0, 0, 0, w⟩ ∧
    (main a w).exitCode = 0 := by
  have h1 : convert_directory d a.output a.recursive w = ⟨0, 0, 0, w⟩ := by
    unfold convert_directory
    simp [hex]
  refine ⟨h1, ?_⟩
  unfold main
  simp [hd, hi, h1]

/-- C2 (witness): directory `missing` in an empty filesystem. -/
theorem C2_missing_dir_exit_zero_witness :
    convert_directory ⟨["missing"]⟩ none false
        ⟨[], [], fun _ => true, fun _ => true, fun _ => true⟩
      = ⟨0, 0, 0, ⟨[], [], fun _ => true, fun _ => true, fun _ => true⟩⟩ ∧
    (main ⟨none, none, some ⟨["missing"]⟩, false⟩
        ⟨[], [], fun _ => true, fun _ => true, fun _ => true⟩).exitCode = 0 :=
  C2_missing_dir_exit_zero ⟨none, none, some ⟨["missing"]⟩, false⟩ ⟨["missing"]⟩
    ⟨[], [], fun _ => true, fun _ => true, fun _ => true⟩ rfl rfl rfl

/-- C1: in a batch run whose input directory exists, the returned pair
satisfies `success_count + failure_count = N` where `N` is the number of MSG
files discovered by the glob, every discovered file being counted exactly
once. -/
theorem C1_batch_counts (d : Path) (od : Option Path) (r : Bool) (w : World)
    (hex : pathExists w d = true) (hdir : isDir w d = true) :
    (convert_directory d od r w).success + (convert_directory d od r w).failure
      = (glob w d (msgPattern r)).length := by
  unfold convert_directory
  cases he : (glob w d (msgPattern r)).isEmpty
  · simp [hex, hdir, he, batchLoop_sum]
  · have hnil : glob w d (msgPattern r) = [] := by simpa using he
    simp [hex, hdir, hnil]

/-- C1 (witness): a directory with two MSG files, one of which fails to
decode: the counts are 1 and 1 and add up to the 2 discovered files. -/
theorem C1_batch_counts_witness :
    (convert_directory ⟨["in"]⟩ none false
        ⟨[⟨["in", "a.msg"]⟩, ⟨["in", "b.msg"]⟩], [⟨["in"]⟩],
          fun p => decide (p ≠ ⟨["in", "b.msg"]⟩), fun _ => true, fun _ => true⟩).success
      + (convert_directory ⟨["in"]⟩ none false
        ⟨[⟨["in", "a.msg"]⟩, ⟨["in", "b.msg"]⟩], [⟨["in"]⟩],
          fun p => decide (p ≠ ⟨["in", "b.msg"]⟩), fun _ => true, fun _ => true⟩).failure
      = (glob
          ⟨[⟨["in", "a.msg"]⟩, ⟨["in", "b.msg"]⟩], [⟨["in"]⟩],
            fun p => decide (p ≠ ⟨["in", "b.msg"]⟩), fun _ => true, fun _ => true⟩
          ⟨["in"]⟩ (msgPattern false)).length :=
  C1_batch_counts ⟨["in"]⟩ none false
    ⟨[⟨["in", "a.msg"]⟩, ⟨["in", "b.msg"]⟩], [⟨["in"]⟩],
      fun p => decide (p ≠ ⟨["in", "b.msg"]⟩), fun _ => true, fun _ => true⟩
    rfl rfl

/-- C5: every per-file error condition (missing input, failing decode,
failing serialization, failing write) makes `convert_msg_to_eml` return the
failure value `none` instead of propagating — its result is `some` exactly
when every step succeeds — and the batch driver still invokes the converter
once per discovered file, whatever the failures. -/
theorem C5_fault_isolation (p : Path) (op : Option Path) (d : Path)
    (od : Option Path) (r : Bool) (w : World)
    (hex : pathExists w d = true) (hdir : isDir w d = true) :
    ((convert_msg_to_eml p op w).result.isSome =
      (pathExists w p && w.openOk p && w.serializeOk p &&
        w.writeOk (resolveOutput p op))) ∧
    (convert_directory d od r w).attempts = (glob w d (msgPattern r)).length := by
  constructor
  · unfold convert_msg_to_eml
    cases h1 : pathExists w p <;> cases h2 : w.openOk p <;>
      cases h3 : w.serializeOk p <;> cases h4 : w.writeOk (resolveOutput p op) <;>
      simp [h1, h2, h3, h4]
  · unfold convert_directory
    cases he : (glob w d (msgPattern r)).isEmpty
    · simp [hex, hdir, he, batchLoop_attempts]
    · have hnil : glob w d (msgPattern r) = [] := by simpa using he
      simp [hex, hdir, hnil]

/-- C5 (witness): the first of two discovered files fails to decode, the
failing conversion returns `none`, and both files are still attempted. -/
theorem C5_fault_isolation_witness :
    ((convert_msg_to_eml ⟨["in", "a.msg"]⟩ (some ⟨["in", "a.eml"]⟩)
        ⟨[⟨["in", "a.msg"]⟩, ⟨["in", "b.msg"]⟩], [⟨["in"]⟩],
          fun p => decide (p ≠ ⟨["in", "a.msg"]⟩), fun _ => true, fun _ => true⟩).result.isSome =
      (pathExists
          ⟨[⟨["in", "a.msg"]⟩, ⟨["in", "b.msg"]⟩], [⟨["in"]⟩],
            fun p => decide (p ≠ ⟨["in", "a.msg"]⟩), fun _ => true, fun _ => true⟩
          ⟨["in", "a.msg"]⟩ &&
        (fun p : Path => decide (p ≠ ⟨["in", "a.msg"]⟩)) ⟨["in", "a.msg"]⟩ &&
        (fun _ : Path => true) ⟨["in", "a.msg"]⟩ &&
        (fun _ : Path => true) (resolveOutput ⟨["in", "a.msg"]⟩ (some ⟨["in", "a.eml"]⟩)))) ∧
    (convert_directory ⟨["in"]⟩ none false
        ⟨[⟨["in", "a.msg"]⟩, ⟨["in", "b.msg"]⟩], [⟨["in"]⟩],
          fun p => decide (p ≠ ⟨["in", "a.msg"]⟩), fun _ => true, fun _ => true⟩).attempts
      = (glob
          ⟨[⟨["in", "a.msg"]⟩, ⟨["in", "b.msg"]⟩], [⟨["in"]⟩],
            fun p => decide (p ≠ ⟨["in", "a.msg"]⟩), fun _ => true, fun _ => true⟩
          ⟨["in"]⟩ (msgPattern false)).length :=
  C5_fault_isolation ⟨["in", "a.msg"]⟩ (some ⟨["in", "a.eml"]⟩) ⟨["in"]⟩ none false
    ⟨[⟨["in", "a.msg"]⟩, ⟨["in", "b.msg"]⟩], [⟨["in"]⟩],
      fun p => decide (p ≠ ⟨["in", "a.msg"]⟩), fun _ => true, fun _ => true⟩
    rfl rfl

/-- C9: when the input directory exists but the glob discovers no MSG file,
the batch run returns the empty summary `(0, 0)` with zero converter
invocations and an unchanged filesystem, and the process exits with code 0. -/
theorem C9_empty_dir (a : Args) (d : Path) (w : World)
    (hi : a.input = none) (hd : a.directory = some d)
    (hex : pathExists w d = true) (hdir : isDir w d = true)
    (hempty : glob w d (msgPattern a.recursive) = []) :
    convert_directory d a.output a.recursive w = ⟨0, 0, 0, w⟩ ∧
    (main a w).exitCode = 0 := by
  have h1 : convert_directory d a.output a.recursive w = ⟨0, 0, 0, w⟩ := by
    unfold convert_directory
    simp [hex, hdir, hempty]
  refine ⟨h1, ?_⟩
  unfold main
  simp [hi, hd, h1]

/-- C9 (witness): an existing directory containing only a text file. -/
theorem C9_empty_dir_witness :
    convert_directory ⟨["empty"]⟩ none false
        ⟨[⟨["empty", "notes.txt"]⟩], [⟨["empty"]⟩],
          fun _ => true, fun _ => true, fun _ => true⟩
      = ⟨0, 0, 0,
          ⟨[⟨["empty", "notes.txt"]⟩], [⟨["empty"]⟩],
            fun _ => true, fun _ => true, fun _ => true⟩⟩ ∧
    (main ⟨none, none, some ⟨["empty"]⟩, false⟩
        ⟨[⟨["empty", "notes.txt"]⟩], [⟨["empty"]⟩],
          fun _ => true, fun _ => true, fun _ => true⟩).exitCode = 0 :=
  C9_empty_dir ⟨none, none, some ⟨["empty"]⟩, false⟩ ⟨["empty"]⟩
    ⟨[⟨["empty", "notes.txt"]⟩], [⟨["empty"]⟩],
      fun _ => true, fun _ => true, fun _ => true⟩
    rfl rfl rfl rfl rfl

/-- C8: with no explicit output path the converter resolves the output to
the input path with its extension replaced by `.eml`; and in a batch run
with an explicit output directory, every file the run creates sits at that
directory joined with the input file's path relative to the input directory,
extension replaced by `.eml`. -/
theorem C8_output_resolution :
    (∀ (p : Path) (w : World) (q : Path),
        (convert_msg_to_eml p none w).result = some q →
        q = p.withSuffix ".eml" ∧ q ∈ (convert_msg_to_eml p none w).world.files) ∧
    (∀ (d od : Path) (r : Bool) (w : World) (q : Path),
        q ∈ (convert_directory d (some od) r w).world.files →
        q ∈ w.files ∨ ∃ f ∈ glob w d (msgPattern r),
          q = od.join ((f.relativeTo d).withSuffix ".eml")) := by
  constructor
  · intro p w q hq
    unfold convert_msg_to_eml at hq ⊢
    cases h1 : pathExists w p <;> cases h2 : w.openOk p <;>
      cases h3 : w.serializeOk p <;>
      cases h4 : w.writeOk (resolveOutput p none) <;>
      simp [h1, h2, h3, h4, writeFile] at hq ⊢
    simp [← hq, resolveOutput]
  · intro d od r w q hq
    simp only [convert_directory] at hq
    split at hq
    · exact Or.inl hq
    · split at hq
      · exact Or.inl hq
      · exact batchLoop_files d (some od) _ w q hq

/-- C8 (witness): converting `m.msg` with no output path creates `m.eml`;
and a recursive batch of `in/sub/c.msg` into output directory `out` only
creates `out/sub/c.eml`. -/
theorem C8_output_resolution_witness :
    ((⟨["m.eml"]⟩ : Path) = Path.withSuffix ⟨["m.msg"]⟩ ".eml" ∧
      (⟨["m.eml"]⟩ : Path) ∈ (convert_msg_to_eml ⟨["m.msg"]⟩ none
        ⟨[⟨["m.msg"]⟩], [], fun _ => true, fun _ => true, fun _ => true⟩).world.files) ∧
    ((⟨["out", "sub", "c.eml"]⟩ : Path) ∈
        (convert_directory ⟨["in"]⟩ (some ⟨["out"]⟩) true
          ⟨[⟨["in", "sub", "c.msg"]⟩], [⟨["in"]⟩, ⟨["in", "sub"]⟩],
            fun _ => true, fun _ => true, fun _ => true⟩).world.files →
      (⟨["out", "sub", "c.eml"]⟩ : Path) ∈
        (⟨[⟨["in", "sub", "c.msg"]⟩], [⟨["in"]⟩, ⟨["in", "sub"]⟩],
          fun _ => true, fun _ => true, fun _ => true⟩ : World).files ∨
      ∃ f ∈ glob
          ⟨[⟨["in", "sub", "c.msg"]⟩], [⟨["in"]⟩, ⟨["in", "sub"]⟩],
            fun _ => true, fun _ => true, fun _ => true⟩
          ⟨["in"]⟩ (msgPattern true),
        (⟨["out", "sub", "c.eml"]⟩ : Path)
          = Path.join ⟨["out"]⟩ ((f.relativeTo ⟨["in"]⟩).withSuffix ".eml")) :=
  ⟨C8_output_resolution.1 ⟨["m.msg"]⟩
      ⟨[⟨["m.msg"]⟩], [], fun _ => true, fun _ => true, fun _ => true⟩
      ⟨["m.eml"]⟩ rfl,
    C8_output_resolution.2 ⟨["in"]⟩ ⟨["out"]⟩ true
      ⟨[⟨["in", "sub", "c.msg"]⟩], [⟨["in"]⟩, ⟨["in", "sub"]⟩],
        fun _ => true, fun _ => true, fun _ => true⟩
      ⟨["out", "sub", "c.eml"]⟩⟩

/-! Characterization of glob matching, for the enumeration claim. -/

/-- The name lowered character by character (used only to state the spec's
case-insensitive reading of extension matching). -/
def lowerStr (s : String) : String :=
  ⟨s.data.map Char.toLower⟩

/-- Spec-side predicate, following the spec's words "matching the MSG
extension (case-insensitive)": the name, lowered, ends in `.msg`. The source
itself matches with `glob('*.msg')`, which is compared against this. -/
def matchesMsgCaseInsensitive (name : String) : Bool :=
  strEndsWith (lowerStr name) ".msg"

/-- The single-component pattern `*suf` accepts exactly the one-component
lists whose component ends in `suf`. -/
theorem segsMatch_star_iff (suf : String) (cs : List String) :
    segsMatch [GlobSeg.star suf] cs = true ↔
      ∃ name, cs = [name] ∧ strEndsWith name suf = true := by
  cases cs with
  | nil => simp [segsMatch]
  | cons c cs1 =>
    cases cs1 with
    | nil => simp [segsMatch]
    | cons c2 cs2 => simp [segsMatch]

/-- The `**` helper accepts exactly the lists with a suffix accepted by the
continuation. -/
theorem anySuffix_iff (m : List String → Bool) :
    ∀ cs : List String,
      (anySuffix m cs = true ↔ ∃ ds rest, cs = ds ++ rest ∧ m rest = true) := by
  intro cs
  induction cs with
  | nil =>
    constructor
    · intro h
      exact ⟨[], [], rfl, h⟩
    · rintro ⟨ds, rest, hcs, hm⟩
      obtain ⟨h1, h2⟩ := List.append_eq_nil.mp hcs.symm
      subst h2
      exact hm
  | cons c cs1 ih =>
    have hdef : anySuffix m (c :: cs1) = (m (c :: cs1) || anySuffix m cs1) := rfl
    rw [hdef, Bool.or_eq_true, ih]
    constructor
    · rintro (h | ⟨ds, rest, hcs, hm⟩)
      · exact ⟨[], c :: cs1, rfl, h⟩
      · exact ⟨c :: ds, rest, by rw [hcs, List.cons_append], hm⟩
    · rintro ⟨ds, rest, hcs, hm⟩
      cases ds with
      | nil =>
        left
        rw [List.nil_append] at hcs
        rw [← hcs] at hm
        exact hm
      | cons d1 ds1 =>
        right
        rw [List.cons_append] at hcs
        injection hcs with hc hcs1
        exact ⟨ds1, rest, hcs1, hm⟩

/-- The pattern `**/*suf` accepts exactly the nonempty lists whose last
component ends in `suf`. -/
theorem segsMatch_anyDirs_star_iff (suf : String) (cs : List String) :
    segsMatch [GlobSeg.anyDirs, GlobSeg.star suf] cs = true ↔
      ∃ ds name, cs = ds ++ [name] ∧ strEndsWith name suf = true := by
  have hdef : segsMatch [GlobSeg.anyDirs, GlobSeg.star suf] cs
      = anySuffix (segsMatch [GlobSeg.star suf]) cs := rfl
  rw [hdef, anySuffix_iff]
  constructor
  · rintro ⟨ds, rest, hcs, hm⟩
    rcases (segsMatch_star_iff suf rest).mp hm with ⟨name, hrest, hend⟩
    exact ⟨ds, name, by rw [hcs, hrest], hend⟩
  · rintro ⟨ds, name, hcs, hend⟩
    exact ⟨ds, [name], hcs, (segsMatch_star_iff suf [name]).mpr ⟨name, rfl, hend⟩⟩

/-- Membership in a glob result unfolded into its three conditions. -/
theorem mem_glob_iff (w : World) (d : Path) (pat : List GlobSeg) (f : Path) :
    f ∈ glob w d pat ↔
      f ∈ w.entries ∧ d.components.isPrefixOf f.components = true ∧
        segsMatch pat (f.components.drop d.components.length) = true := by
  unfold glob globMatch
  rw [List.mem_filter]
  simp [Bool.and_eq_true]

/-- Non-recursive enumeration: exactly the existing entries one level below
the input directory whose name ends in `.msg` (exact case). -/
theorem glob_single_level_iff (w : World) (d f : Path) :
    f ∈ glob w d [GlobSeg.star ".msg"] ↔
      f ∈ w.entries ∧ ∃ name, f.components = d.components ++ [name] ∧
        strEndsWith name ".msg" = true := by
  rw [mem_glob_iff]
  constructor
  · rintro ⟨hent, hpre, hseg⟩
    obtain ⟨t, ht⟩ := List.isPrefixOf_iff_prefix.mp hpre
    have hdrop : f.components.drop d.components.length = t := by
      rw [← ht, List.drop_left]
    rw [hdrop] at hseg
    rcases (segsMatch_star_iff ".msg" t).mp hseg with ⟨name, htname, hend⟩
    exact ⟨hent, name, by rw [← ht, htname], hend⟩
  · rintro ⟨hent, name, hcomp, hend⟩
    refine ⟨hent, ?_, ?_⟩
    · rw [hcomp]
      exact List.isPrefixOf_iff_prefix.mpr ⟨[name], rfl⟩
    · rw [hcomp, List.drop_left]
      exact (segsMatch_star_iff ".msg" [name]).mpr ⟨name, rfl, hend⟩

/-- Recursive enumeration: exactly the existing entries anywhere strictly
below the input directory whose name ends in `.msg` (exact case). -/
theorem glob_subtree_iff (w : World) (d f : Path) :
    f ∈ glob w d [GlobSeg.anyDirs, GlobSeg.star ".msg"] ↔
      f ∈ w.entries ∧ ∃ ds name, f.components = d.components ++ ds ++ [name] ∧
        strEndsWith name ".msg" = true := by
  rw [mem_glob_iff]
  constructor
  · rintro ⟨hent, hpre, hseg⟩
    obtain ⟨t, ht⟩ := List.isPrefixOf_iff_prefix.mp hpre
    have hdrop : f.components.drop d.components.length = t := by
      rw [← ht, List.drop_left]
    rw [hdrop] at hseg
    rcases (segsMatch_anyDirs_star_iff ".msg" t).mp hseg with ⟨ds, name, htval, hend⟩
    refine ⟨hent, ds, name, ?_, hend⟩
    rw [← ht, htval, List.append_assoc]
  · rintro ⟨hent, ds, name, hcomp, hend⟩
    refine ⟨hent, ?_, ?_⟩
    · rw [hcomp, List.append_assoc]
      exact List.isPrefixOf_iff_prefix.mpr ⟨ds ++ [name], rfl⟩
    · rw [hcomp, List.append_assoc, List.drop_left]
      exact (segsMatch_anyDirs_star_iff ".msg" (ds ++ [name])).mpr ⟨ds, name, rfl, hend⟩

/-- C4 (counterexample): `in/A.MSG` exists as a direct child of `in` and its
name matches the MSG extension case-insensitively, yet neither the
non-recursive nor the recursive enumeration selects it — `glob('*.msg')` is
case-sensitive, so the selection is empty. -/
theorem C4_counterexample :
    matchesMsgCaseInsensitive "A.MSG" = true ∧
    (⟨["in", "A.MSG"]⟩ : Path) ∈
      (⟨[⟨["in", "A.MSG"]⟩], [⟨["in"]⟩],
        fun _ => true, fun _ => true, fun _ => true⟩ : World).entries ∧
    glob ⟨[⟨["in", "A.MSG"]⟩], [⟨["in"]⟩],
        fun _ => true, fun _ => true, fun _ => true⟩ ⟨["in"]⟩ (msgPattern false)
      = [] ∧
    glob ⟨[⟨["in", "A.MSG"]⟩], [⟨["in"]⟩],
        fun _ => true, fun _ => true, fun _ => true⟩ ⟨["in"]⟩ (msgPattern true)
      = [] := by
  refine ⟨?_, ?_, ?_, ?_⟩ <;> decide

/-- C4 (amended): batch enumeration selects, when recursive mode is off,
exactly the existing entries that are direct children of the input directory
whose name ends in `.msg` with exact case (case-sensitively, never entries
from subdirectories), and when recursive mode is on, all such entries in the
full subtree. -/
theorem C4_enumeration (w : World) (d f : Path) :
    (f ∈ glob w d (msgPattern false) ↔
      f ∈ w.entries ∧ ∃ name, f.components = d.components ++ [name] ∧
        strEndsWith name ".msg" = true) ∧
    (f ∈ glob w d (msgPattern true) ↔
      f ∈ w.entries ∧ ∃ ds name, f.components = d.components ++ ds ++ [name] ∧
        strEndsWith name ".msg" = true) :=
  ⟨glob_single_level_iff w d f, glob_subtree_iff w d f⟩

end Msg2Eml
